import Mathlib

/-!
Verification of the retrieval-augmented credit-underwriting pipeline:
a shallow embedding of the structured-answer extractor, the failure
translator, the schema validator, the query-engine postprocessing and
the index manager, with theorems settling the specification claims.
-/

namespace CreditRag

/-! ### Configuration constants (src/src/settings.py and config/settings.py defaults) -/

/-- Default Ollama base address from src/src/settings.py. -/
def OLLAMA_BASE_URL : String := "http://localhost:11434"

/-- Default Ollama model name from src/src/settings.py. -/
def OLLAMA_MODEL : String := "qwen3:8b"

/-- Default embedding model from src/src/settings.py. -/
def EMBED_MODEL : String := "BAAI/bge-m3"

/-- Default embedding model from config/settings.py (class Settings). -/
def EMBEDDING_MODEL : String := "text-embedding-ada-002"

/-! ### JSON values

Values as produced by the Python json module: objects keep their member
list in insertion order (lookup takes the last binding, as dict build
order does); integers and floats are kept apart the way json.loads
keeps int and float apart; float literals are kept as exact scaled
decimals mantissa / 10 ^ scale * 10 ^ exp10. -/

inductive Json where
  | null
  | bool (b : Bool)
  | numInt (n : Int)
  | numFloat (mantissa : Int) (scale : Nat) (exp10 : Int)
  | str (s : String)
  | arr (elems : List Json)
  | obj (members : List (String × Json))

/-! ### JSON parsing (models Python json.loads on the extracted substring) -/

/-- JSON whitespace, the characters json.loads skips between tokens. -/
def isWs (c : Char) : Bool := c = ' ' || c = '\t' || c = '\n' || c = '\r'

def skipWs : List Char → List Char
  | [] => []
  | c :: cs => if isWs c then skipWs cs else c :: cs

def hexDigitVal (c : Char) : Option Nat :=
  if 48 ≤ c.toNat ∧ c.toNat ≤ 57 then some (c.toNat - 48)
  else if 97 ≤ c.toNat ∧ c.toNat ≤ 102 then some (c.toNat - 87)
  else if 65 ≤ c.toNat ∧ c.toNat ≤ 70 then some (c.toNat - 55)
  else none

/-- The single-character string escapes accepted by the JSON grammar. -/
def escapeChar (c : Char) : Option Char :=
  if c = '"' then some '"'
  else if c = '\\' then some '\\'
  else if c = '/' then some '/'
  else if c = 'b' then some (Char.ofNat 8)
  else if c = 'f' then some (Char.ofNat 12)
  else if c = 'n' then some '\n'
  else if c = 'r' then some '\r'
  else if c = 't' then some '\t'
  else none

/-- Parse a JSON string body after the opening quote, returning the decoded
characters and the remainder after the closing quote.  Control characters
below 0x20 are rejected, as json.loads does in its default strict mode. -/
def parseStringBody : Nat → List Char → Option (List Char × List Char)
  | 0, _ => none
  | _ + 1, [] => none
  | fuel + 1, c :: rest =>
    if c = '"' then some ([], rest)
    else if c = '\\' then
      match rest with
      | [] => none
      | e :: rest2 =>
        if e = 'u' then
          match rest2 with
          | h1 :: h2 :: h3 :: h4 :: rest3 =>
            match hexDigitVal h1, hexDigitVal h2, hexDigitVal h3, hexDigitVal h4 with
            | some a, some b, some c2, some d =>
              let n := ((a * 16 + b) * 16 + c2) * 16 + d
              if n < 55296 ∨ (57343 < n ∧ n < 1114112) then
                match parseStringBody fuel rest3 with
                | some (s, rem) => some (Char.ofNat n :: s, rem)
                | none => none
              else none
            | _, _, _, _ => none
          | _ => none
        else
          match escapeChar e with
          | some ec =>
            match parseStringBody fuel rest2 with
            | some (s, rem) => some (ec :: s, rem)
            | none => none
          | none => none
    else if c.toNat < 32 then none
    else
      match parseStringBody fuel rest with
      | some (s, rem) => some (c :: s, rem)
      | none => none

/-- Take a maximal run of decimal digits off the front of the input. -/
def takeDigits : List Char → List Nat × List Char
  | [] => ([], [])
  | c :: cs =>
    if 48 ≤ c.toNat ∧ c.toNat ≤ 57 then
      let (ds, rest) := takeDigits cs
      ((c.toNat - 48) :: ds, rest)
    else ([], c :: cs)

def digitsToNat (ds : List Nat) : Nat := ds.foldl (fun acc d => acc * 10 + d) 0

def applySign (neg : Bool) (n : Nat) : Int := if neg then -(n : Int) else (n : Int)

/-- Optional fraction part: a dot must be followed by at least one digit. -/
def parseFrac : List Char → Option (List Nat × List Char)
  | '.' :: rest =>
    match takeDigits rest with
    | ([], _) => none
    | (ds, rest2) => some (ds, rest2)
  | cs => some ([], cs)

/-- Optional exponent part: e or E, an optional sign, at least one digit. -/
def parseExp : List Char → Option (Option Int × List Char)
  | c :: rest =>
    if c = 'e' ∨ c = 'E' then
      let signAndRest : Int × List Char :=
        match rest with
        | '+' :: r => (1, r)
        | '-' :: r => (-1, r)
        | _ => (1, rest)
      match takeDigits signAndRest.2 with
      | ([], _) => none
      | (ds, rest2) => some (some (signAndRest.1 * (digitsToNat ds : Int)), rest2)
    else some (none, c :: rest)
  | [] => some (none, [])

/-- Finish a number after its integer part: a number with a fraction or an
exponent becomes a float, a bare integer literal stays an int, exactly as
json.loads distinguishes the two. -/
def parseNumberTail (neg : Bool) (ipart : Nat) (cs : List Char) : Option (Json × List Char) :=
  match parseFrac cs with
  | none => none
  | some (frac, cs1) =>
    match parseExp cs1 with
    | none => none
    | some (eOpt, cs2) =>
      if frac.isEmpty ∧ eOpt.isNone then
        some (Json.numInt (applySign neg ipart), cs2)
      else
        let mantissa : Int := applySign neg (ipart * 10 ^ frac.length + digitsToNat frac)
        some (Json.numFloat mantissa frac.length (eOpt.getD 0), cs2)

/-- Integer part of a number: a leading zero cannot be followed by more
digits (JSON forbids 01), otherwise a nonzero digit starts a digit run. -/
def parseNumberCore (neg : Bool) : List Char → Option (Json × List Char)
  | '0' :: rest => parseNumberTail neg 0 rest
  | c :: rest =>
    if 49 ≤ c.toNat ∧ c.toNat ≤ 57 then
      let (ds, cs2) := takeDigits rest
      parseNumberTail neg (digitsToNat ((c.toNat - 48) :: ds)) cs2
    else none
  | [] => none

def parseNumber (cs : List Char) : Option (Json × List Char) :=
  match cs with
  | '-' :: rest => parseNumberCore true rest
  | _ => parseNumberCore false cs

mutual

/-- Recursive-descent JSON value parser, fuel-indexed; every recursive call
spends one unit of fuel, and the top-level entry supplies enough fuel for
any input of its length. -/
def parseValue : Nat → List Char → Option (Json × List Char)
  | 0, _ => none
  | fuel + 1, cs =>
    match skipWs cs with
    | [] => none
    | c :: rest =>
      if c = '"' then
        match parseStringBody (rest.length + 1) rest with
        | some (s, rem) => some (Json.str (String.mk s), rem)
        | none => none
      else if c = '{' then parseObjStart fuel rest
      else if c = '[' then parseArrStart fuel rest
      else if c = 't' then
        match rest with
        | 'r' :: 'u' :: 'e' :: rem => some (Json.bool true, rem)
        | _ => none
      else if c = 'f' then
        match rest with
        | 'a' :: 'l' :: 's' :: 'e' :: rem => some (Json.bool false, rem)
        | _ => none
      else if c = 'n' then
        match rest with
        | 'u' :: 'l' :: 'l' :: rem => some (Json.null, rem)
        | _ => none
      else parseNumber (c :: rest)

/-- After an opening brace: either an immediately closing brace or members. -/
def parseObjStart : Nat → List Char → Option (Json × List Char)
  | 0, _ => none
  | fuel + 1, cs =>
    match skipWs cs with
    | '}' :: rem => some (Json.obj [], rem)
    | cs1 => parseObjMember fuel cs1 []

/-- One object member: a string key, a colon, a value. -/
def parseObjMember : Nat → List Char → List (String × Json) → Option (Json × List Char)
  | 0, _, _ => none
  | fuel + 1, cs, acc =>
    match skipWs cs with
    | '"' :: rest =>
      match parseStringBody (rest.length + 1) rest with
      | some (k, rest2) =>
        match skipWs rest2 with
        | ':' :: rest3 =>
          match parseValue fuel rest3 with
          | some (v, rest4) => parseObjRest fuel rest4 (acc ++ [(String.mk k, v)])
          | none => none
        | _ => none
      | none => none
    | _ => none

/-- After a member: either the closing brace or a comma and another member
(trailing commas are rejected as in JSON). -/
def parseObjRest : Nat → List Char → List (String × Json) → Option (Json × List Char)
  | 0, _, _ => none
  | fuel + 1, cs, acc =>
    match skipWs cs with
    | '}' :: rem => some (Json.obj acc, rem)
    | ',' :: rest => parseObjMember fuel rest acc
    | _ => none

/-- After an opening bracket: either an immediately closing bracket or elements. -/
def parseArrStart : Nat → List Char → Option (Json × List Char)
  | 0, _ => none
  | fuel + 1, cs =>
    match skipWs cs with
    | ']' :: rem => some (Json.arr [], rem)
    | cs1 => parseArrMember fuel cs1 []

def parseArrMember : Nat → List Char → List Json → Option (Json × List Char)
  | 0, _, _ => none
  | fuel + 1, cs, acc =>
    match parseValue fuel cs with
    | some (v, rest) => parseArrRest fuel rest (acc ++ [v])
    | none => none

def parseArrRest : Nat → List Char → List Json → Option (Json × List Char)
  | 0, _, _ => none
  | fuel + 1, cs, acc =>
    match skipWs cs with
    | ']' :: rem => some (Json.arr acc, rem)
    | ',' :: rest => parseArrMember fuel rest acc
    | _ => none

end

/-- Modelled from the spec: Python json.loads, which the source calls on the
extracted substring.  The whole input, up to trailing whitespace, must be one
JSON value; anything else is a parse error. -/
def jsonLoads (s : String) : Option Json :=
  let cs := s.data
  match parseValue (4 * (cs.length + 1)) cs with
  | some (v, rest) => if (skipWs rest).isEmpty then some v else none
  | none => none

/-! ### The structured-answer extractor (src/src/query.py, extract_json) -/

/-- Index of the first occurrence of a character in a list. -/
def firstIdxOf (c : Char) : List Char → Option Nat
  | [] => none
  | x :: xs => if x = c then some 0 else (firstIdxOf c xs).map (· + 1)

/-- Index of the last occurrence of a character in a list. -/
def lastIdxOf (c : Char) : List Char → Option Nat
  | [] => none
  | x :: xs =>
    match lastIdxOf c xs with
    | some j => some (j + 1)
    | none => if x = c then some 0 else none

/-- The span matched by re.search on the brace-to-brace pattern with DOTALL:
leftmost start, then greedy, so the match runs from the first opening brace
to the last closing brace, and exists exactly when an opening brace is
followed somewhere later by a closing brace. -/
def regexBraceSpan (cs : List Char) : Option (List Char) :=
  match firstIdxOf '{' cs, lastIdxOf '}' cs with
  | some i, some j => if i < j then some ((cs.drop i).take (j - i + 1)) else none
  | _, _ => none

/-- The error taxonomy of the extractor: NoJsonFound is the ValueError raised
when the pattern has no match, MalformedJson the json.JSONDecodeError from
json.loads. -/
inductive ExtractErr where
  | noJsonFound
  | malformedJson
deriving DecidableEq

/-- src/src/query.py extract_json: search for a brace-delimited span, fail
with NoJsonFound when there is none, otherwise hand the matched span to the
JSON parser, whose failure is MalformedJson. -/
def extract_json (text : String) : Except ExtractErr Json :=
  match regexBraceSpan text.data with
  | none => Except.error ExtractErr.noJsonFound
  | some sub =>
    match jsonLoads (String.mk sub) with
    | some v => Except.ok v
    | none => Except.error ExtractErr.malformedJson

/-! ### The Structured Answer schema (src/src/schema.py) -/

/-- The four admissible decision values (the Decision Literal). -/
def decisionValues : List String := ["approve", "decline", "need_more_info", "review"]

/-- The three admissible reason types (the Reason type Literal). -/
def reasonTypeValues : List String := ["rule", "model", "policy"]

structure Evidence where
  doc_title : String
  version : Option String := none
  «section» : Option String := none
  page : Option Int := none
deriving DecidableEq

structure Reason where
  type : String
  text : String
  evidence : List Evidence := []
deriving DecidableEq

structure AssistantResponse where
  summary : String
  decision : String
  reasons : List Reason
  missing_info : List String := []
  next_actions : List String := []
  customer_message_draft : Option String := none
  risk_note : Option String := none
deriving DecidableEq

/-! ### Validation (models pydantic model_validate for this schema) -/

/-- Dictionary lookup with Python dict semantics: the last binding of a
repeated key wins, as json.loads builds its dicts in insertion order. -/
def objGet (members : List (String × Json)) (key : String) : Option Json :=
  match members with
  | [] => none
  | (k, v) :: rest =>
    match objGet rest key with
    | some v' => some v'
    | none => if k = key then some v else none

/-- Modelled from the spec: pydantic validation of a str field, which
accepts exactly a JSON string. -/
def validateStr : Json → Option String
  | Json.str s => some s
  | _ => none

/-- An Optional str field accepts a string or null. -/
def validateOptStr : Json → Option (Option String)
  | Json.null => some none
  | Json.str s => some (some s)
  | _ => none

/-- The integer value of a float literal mantissa / 10 ^ scale * 10 ^ exp10
when that value is integral. -/
def floatIntValue (m : Int) (scale : Nat) (e : Int) : Option Int :=
  let shift : Int := e - scale
  if 0 ≤ shift then some (m * 10 ^ shift.toNat)
  else
    let d : Int := (10 : Int) ^ (-shift).toNat
    if m % d = 0 then some (m / d) else none

/-- A nonempty all-digit run read as a natural number. -/
def digitsOnly (cs : List Char) : Option Nat :=
  match cs with
  | [] => none
  | _ =>
    match takeDigits cs with
    | (ds, []) => some (digitsToNat ds)
    | _ => none

/-- Lax integer coercion of a decimal string, as pydantic applies to
numeric strings. -/
def strToInt (s : String) : Option Int :=
  match s.data with
  | '-' :: ds => (digitsOnly ds).map (fun n => -(n : Int))
  | '+' :: ds => (digitsOnly ds).map (fun n => (n : Int))
  | ds => (digitsOnly ds).map (fun n => (n : Int))

/-- Modelled from the spec: a lax-mode pydantic int field accepts an int, a
float of integral value, or a numeric string; anything else fails. -/
def validateInt : Json → Option Int
  | Json.numInt n => some n
  | Json.numFloat m scale e => floatIntValue m scale e
  | Json.str s => strToInt s
  | _ => none

/-- An Optional int field accepts an int-coercible value or null. -/
def validateOptInt (j : Json) : Option (Option Int) :=
  match j with
  | Json.null => some none
  | _ => (validateInt j).map some

/-- A Literal field accepts exactly one of the enumerated strings. -/
def validateLiteral (allowed : List String) : Json → Option String
  | Json.str s => if s ∈ allowed then some s else none
  | _ => none

/-- Validate every element of a list, failing when any element fails. -/
def traverseOpt {α : Type} (f : Json → Option α) : List Json → Option (List α)
  | [] => some []
  | x :: xs =>
    match f x, traverseOpt f xs with
    | some y, some ys => some (y :: ys)
    | _, _ => none

/-- A typed-list field accepts exactly a JSON array of valid elements. -/
def validateList {α : Type} (f : Json → Option α) : Json → Option (List α)
  | Json.arr elems => traverseOpt f elems
  | _ => none

/-- A required pydantic field: a missing key or a failed field validation
fails the model. -/
def reqField {α : Type} (f : Json → Option α) (ms : List (String × Json)) (key : String) :
    Option α :=
  (objGet ms key).bind f

/-- A defaulted pydantic field: a missing key takes the default, a present
key must validate. -/
def optField {α : Type} (f : Json → Option α) (dflt : α) (ms : List (String × Json))
    (key : String) : Option α :=
  match objGet ms key with
  | none => some dflt
  | some j => f j

/-- Validation of one Evidence object of src/src/schema.py. -/
def validateEvidence : Json → Option Evidence
  | Json.obj ms =>
    (reqField validateStr ms "doc_title").bind fun dt =>
    (optField validateOptStr none ms "version").bind fun ver =>
    (optField validateOptStr none ms "section").bind fun sec =>
    (optField validateOptInt none ms "page").bind fun pg =>
    some { doc_title := dt, version := ver, «section» := sec, page := pg }
  | _ => none

/-- Validation of one Reason object of src/src/schema.py. -/
def validateReason : Json → Option Reason
  | Json.obj ms =>
    (reqField (validateLiteral reasonTypeValues) ms "type").bind fun ty =>
    (reqField validateStr ms "text").bind fun tx =>
    (optField (validateList validateEvidence) [] ms "evidence").bind fun ev =>
    some { type := ty, text := tx, evidence := ev }
  | _ => none

/-- Validation of the AssistantResponse model of src/src/schema.py: the
input must be an object, the required fields summary, decision and reasons
must validate, the remaining fields default when absent, extra keys are
ignored. -/
def validateAssistantResponse : Json → Option AssistantResponse
  | Json.obj ms =>
    (reqField validateStr ms "summary").bind fun su =>
    (reqField (validateLiteral decisionValues) ms "decision").bind fun de =>
    (reqField (validateList validateReason) ms "reasons").bind fun re =>
    (optField (validateList validateStr) [] ms "missing_info").bind fun mi =>
    (optField (validateList validateStr) [] ms "next_actions").bind fun na =>
    (optField validateOptStr none ms "customer_message_draft").bind fun cm =>
    (optField validateOptStr none ms "risk_note").bind fun rn =>
    some { summary := su, decision := de, reasons := re, missing_info := mi,
           next_actions := na, customer_message_draft := cm, risk_note := rn }
  | _ => none

/-- The Python exception values explain_case can raise. -/
inductive PyErr where
  | runtimeError (msg : String)
  | valueError (msg : String)
  | jsonDecodeError
  | validationError
deriving DecidableEq

/-- pydantic AssistantResponse.model_validate: a schema-conforming answer
or a raised ValidationError; never a partial or coerced answer. -/
def AssistantResponse.model_validate (j : Json) : Except PyErr AssistantResponse :=
  match validateAssistantResponse j with
  | some r => Except.ok r
  | none => Except.error PyErr.validationError

/-! ### The failure translator (src/src/query.py, _friendly_ollama_error) -/

/-- The exception values that can reach the error boundary in
src/src/query.py: the concrete exception classes the translator tests for,
plus a catch-all for every other exception, carrying its raw rendering. -/
inductive OllamaExc where
  | socketTimeout
  | timeoutError
  | requestsTimeout
  | httpxTimeout
  | connectionRefused
  | requestsConnectionError
  | httpxConnectError
  | httpxHTTPStatusError (status : Option Nat)
  | requestsHTTPError (status : Option Nat)
  | otherException (raw : String)
deriving DecidableEq

/-- The isinstance test of the first branch: the four timeout classes. -/
def isTimeoutExc : OllamaExc → Bool
  | .socketTimeout | .timeoutError | .requestsTimeout | .httpxTimeout => true
  | _ => false

/-- The isinstance test of the second branch: the connection classes. -/
def isConnectExc : OllamaExc → Bool
  | .connectionRefused | .requestsConnectionError | .httpxConnectError => true
  | _ => false

/-- The HTTP status carried by an HTTP status exception, when the exception
is one; the status is itself optional because the response can be absent. -/
def httpStatusOf : OllamaExc → Option (Option Nat)
  | .httpxHTTPStatusError st => some st
  | .requestsHTTPError st => some st
  | _ => none

def serviceTimeoutMsg : String :=
  "Ollama request timed out. Check server responsiveness at " ++ OLLAMA_BASE_URL
    ++ " and try again."

def serviceUnreachableMsg : String :=
  "Cannot connect to Ollama at " ++ OLLAMA_BASE_URL
    ++ ". Ensure Ollama Desktop is running and reachable."

/-- Python str of the optional status code (None renders as None). -/
def statusText : Option Nat → String
  | none => "None"
  | some n => toString n

def modelNotFoundMsg : String :=
  "Ollama model '" ++ OLLAMA_MODEL
    ++ "' was not found (HTTP 404). Pull the model in Ollama Desktop or update OLLAMA_MODEL."

def serviceErrorMsg (st : Option Nat) : String :=
  "Ollama request failed with HTTP " ++ statusText st ++ ". Verify OLLAMA_BASE_URL="
    ++ OLLAMA_BASE_URL ++ " and OLLAMA_MODEL=" ++ OLLAMA_MODEL ++ "."

def unknownFailureMsg : String :=
  "Ollama query failed unexpectedly. Verify OLLAMA_BASE_URL and OLLAMA_MODEL settings."

/-- src/src/query.py _friendly_ollama_error: translate a low-level exception
into one actionable RuntimeError message, testing the branches in source
order: timeouts, connection failures, httpx HTTP status errors, requests
HTTP errors, then the generic fallback. -/
def friendly_ollama_error (exc : OllamaExc) : String :=
  if isTimeoutExc exc then serviceTimeoutMsg
  else if isConnectExc exc then serviceUnreachableMsg
  else
    match exc with
    | .httpxHTTPStatusError st =>
      if st = some 404 then modelNotFoundMsg else serviceErrorMsg st
    | .requestsHTTPError st =>
      if st = some 404 then modelNotFoundMsg else serviceErrorMsg st
    | _ => unknownFailureMsg

/-! ### explain_case (src/src/query.py) -/

/-- The request-scoped environment of one explain_case call: the exception
raised while the Ollama client is constructed (if any), the error raised
while the index is loaded (if any), the exception raised by the query call
(if any), and otherwise the raw model output text. -/
structure LlmEnv where
  ollamaInitExc : Option OllamaExc := none
  indexLoadErr : Option String := none
  queryExc : Option OllamaExc := none
  queryText : String := ""

/-- src/src/query.py get_engine: the Ollama constructor is wrapped by the
failure translator; an index-load error propagates as its own
RuntimeError. -/
def get_engine (env : LlmEnv) : Except PyErr Unit :=
  match env.ollamaInitExc with
  | some e => Except.error (PyErr.runtimeError (friendly_ollama_error e))
  | none =>
    match env.indexLoadErr with
    | some msg => Except.error (PyErr.runtimeError msg)
    | none => Except.ok ()

/-- src/src/query.py explain_case: build the engine, query it with the
prompt (wrapping any query exception with the failure translator), extract
the JSON object from the raw output and validate it against the schema. -/
def explain_case (env : LlmEnv) : Except PyErr AssistantResponse :=
  match get_engine env with
  | Except.error e => Except.error e
  | Except.ok _ =>
    match env.queryExc with
    | some e => Except.error (PyErr.runtimeError (friendly_ollama_error e))
    | none =>
      match extract_json env.queryText with
      | Except.error ExtractErr.noJsonFound =>
          Except.error (PyErr.valueError "No JSON object found in model output.")
      | Except.error ExtractErr.malformedJson => Except.error PyErr.jsonDecodeError
      | Except.ok data => AssistantResponse.model_validate data

/-! ### Query engine and similarity postprocessor (src/src/query_engine.py) -/

/-- A retrieval result: a retrieved node with its similarity score, scores
living on the normalized 0 to 1 scale, kept as exact rationals. -/
structure RetrievalResult where
  nodeId : Nat
  score : ℚ
deriving DecidableEq

/-- The node postprocessors create_query_engine can attach. -/
inductive Postprocessor where
  | similarity (cutoff : ℚ)
deriving DecidableEq

/-- Modelled from the spec: the llama_index SimilarityPostprocessor, which
drops every result whose similarity score is below the cutoff. -/
def applyPostprocessor : Postprocessor → List RetrievalResult → List RetrievalResult
  | Postprocessor.similarity cutoff, rs =>
    rs.filter fun r => decide (cutoff ≤ r.score)

/-- A query engine as configured by create_query_engine: the retriever
top-k, the response mode and the attached postprocessors. -/
structure RetrieverQueryEngine where
  similarity_top_k : Nat
  response_mode : String
  node_postprocessors : List Postprocessor
deriving DecidableEq

/-- Default top-k of config/settings.py. -/
def SIMILARITY_TOP_K : Nat := 4

/-- Default response mode of config/settings.py. -/
def RESPONSE_MODE : String := "compact"

/-- Python or-fallback on an optional integer argument: None and 0 both
fall back to the default, as x or y does on falsy values. -/
def orDefaultNat (vOpt : Option Nat) (dflt : Nat) : Nat :=
  match vOpt with
  | none => dflt
  | some 0 => dflt
  | some v => v

/-- Python or-fallback on an optional string argument. -/
def orDefaultStr (vOpt : Option String) (dflt : String) : String :=
  match vOpt with
  | none => dflt
  | some v => if v = "" then dflt else v

/-- src/src/query_engine.py create_query_engine: build a retriever with the
requested top-k and response mode, attaching the SimilarityPostprocessor
with cutoff 0.7 exactly when use_postprocessor is set. -/
def create_query_engine (similarity_top_k : Option Nat) (response_mode : Option String)
    (use_postprocessor : Bool) : RetrieverQueryEngine :=
  { similarity_top_k := orDefaultNat similarity_top_k SIMILARITY_TOP_K,
    response_mode := orDefaultStr response_mode RESPONSE_MODE,
    node_postprocessors :=
      if use_postprocessor then [Postprocessor.similarity (7 / 10)] else [] }

/-- One query through a configured engine, as RetrieverQueryEngine composes
retrieval and postprocessing: the retriever returns its top-k scored nodes
from the ranked store output, then each postprocessor runs in order. -/
def runQuery (engine : RetrieverQueryEngine) (ranked : List RetrievalResult) :
    List RetrievalResult :=
  engine.node_postprocessors.foldl (fun rs p => applyPostprocessor p rs)
    (ranked.take engine.similarity_top_k)

/-! ### Index manager (src/src/indexer.py) -/

/-- The configuration a HuggingFaceEmbedding instance is constructed
with. -/
structure EmbedConfig where
  model_name : String
  embed_batch_size : Nat
deriving DecidableEq

/-- The mutable llama_index global Settings object: the embedding model
currently installed, none when no assignment has happened yet in this
process. -/
structure GlobalSettings where
  embed_model : Option EmbedConfig
deriving DecidableEq

/-- An in-memory vector index over the parsed nodes. -/
structure VectorStoreIndex where
  nodes : List String
deriving DecidableEq

/-- The storage environment one load_index call sees: whether the index
directory exists, whether reading the persisted artifacts succeeds, and
the stored nodes. -/
structure LoadEnv where
  indexDirExists : Bool
  artifactsReadable : Bool
  storedNodes : List String
deriving DecidableEq

/-- The body of the try block of IndexManager.load_index: the chroma branch
first re-installs the configured embedding model and then opens the
collection; the faiss branch reads the faiss index file and the simple
branch reloads the storage context, both leaving the global embedding
model untouched. -/
def loadIndexInner (vectorStoreType : String) (env : LoadEnv) (st : GlobalSettings) :
    Except String VectorStoreIndex × GlobalSettings :=
  if vectorStoreType = "chroma" then
    let st' : GlobalSettings := { embed_model := some ⟨EMBEDDING_MODEL, 32⟩ }
    if env.artifactsReadable then (Except.ok ⟨env.storedNodes⟩, st')
    else (Except.error "chroma load failed", st')
  else if vectorStoreType = "faiss" then
    if env.artifactsReadable then (Except.ok ⟨env.storedNodes⟩, st)
    else (Except.error "faiss read failed", st)
  else
    if env.artifactsReadable then (Except.ok ⟨env.storedNodes⟩, st)
    else (Except.error "storage load failed", st)

/-- IndexManager.load_index: a missing index directory returns None; any
error inside the try block is caught, logged and turned into None; a
loaded index is returned as Some.  The call itself never raises. -/
def load_index (vectorStoreType : String) (env : LoadEnv) (st : GlobalSettings) :
    Except String (Option VectorStoreIndex) × GlobalSettings :=
  if env.indexDirExists = false then (Except.ok none, st)
  else
    match loadIndexInner vectorStoreType env st with
    | (Except.ok idx, st') => (Except.ok (some idx), st')
    | (Except.error _, st') => (Except.ok none, st')

/-- src/src/data_loader.py load_documents_from_directory: a missing
directory yields the empty list; a reader error is caught and yields the
empty list; otherwise the loaded documents. -/
def load_documents_from_directory (dirExists : Bool)
    (readerResult : Except String (List String)) : List String :=
  if dirExists = false then []
  else
    match readerResult with
    | Except.ok docs => docs
    | Except.error _ => []

/-- The environment one create_index call sees: whether the documents
directory exists, what the directory reader returns, and whether writing
the persisted artifacts raises. -/
structure BuildEnv where
  docsDirExists : Bool
  readerResult : Except String (List String)
  persistRaises : Bool

/-- IndexManager._persist_index: the write is wrapped in try/except, so a
failure is only logged and never propagates; the simple and faiss stores
write their storage context, the chroma store persists through its own
client during the build.  Returns whether artifacts were written. -/
def persistIndex (vectorStoreType : String) (env : BuildEnv) : Bool :=
  if env.persistRaises then false
  else if vectorStoreType = "simple" ∨ vectorStoreType = "faiss" then true
  else false

/-- The observable outcome of one create_index call: the returned value,
whether artifacts were durably written, and the global settings after the
call. -/
structure CreateResult where
  returned : Option VectorStoreIndex
  persistedArtifacts : Bool
  settingsAfter : GlobalSettings
deriving DecidableEq

/-- IndexManager.create_index: load documents when none are passed; with no
documents log a warning and return None without building or persisting
anything; otherwise attach metadata, parse nodes (delegated to the
sentence splitter, modelled as the document list itself), install the
configured embedding model, build the backend index, persist when asked —
a persist failure being caught and logged — and return the index. -/
def create_index (vectorStoreType : String) (documents : Option (List String))
    (persist : Bool) (env : BuildEnv) (st : GlobalSettings) : CreateResult :=
  let docs := match documents with
    | none => load_documents_from_directory env.docsDirExists env.readerResult
    | some ds => ds
  match docs with
  | [] => { returned := none, persistedArtifacts := false, settingsAfter := st }
  | d :: ds =>
    let st' : GlobalSettings := { embed_model := some ⟨EMBEDDING_MODEL, 32⟩ }
    { returned := some ⟨d :: ds⟩,
      persistedArtifacts := persist && persistIndex vectorStoreType env,
      settingsAfter := st' }

/-! ### The flat in-process vector store backend -/

/-- Modelled from the spec: the flat in-process backend of the Vector Index
Store — an in-memory matrix of embedding vectors with a parallel document
store, all rows sharing the index embedding dimension. -/
structure FlatStore where
  dim : Nat
  vectors : List (List ℚ)
  docs : List String
deriving DecidableEq

/-- The invariant of a built flat index: a positive embedding dimension and
one row of exactly that dimension per stored vector. -/
def FlatStore.wf (s : FlatStore) : Prop :=
  1 ≤ s.dim ∧ ∀ v ∈ s.vectors, v.length = s.dim

/-- Dot-product similarity of two vectors. -/
def dotScore (u v : List ℚ) : ℚ := (List.zipWith (fun a b => a * b) u v).sum

/-- Modelled from the spec: brute-force nearest-neighbor search — score
every row against the query, order by similarity descending with ties kept
in insertion order (mergeSort is stable), and cap at top_k without erroring
when top_k exceeds the corpus size. -/
def FlatStore.search (s : FlatStore) (q : List ℚ) (top_k : Nat) : List (String × ℚ) :=
  ((List.zip s.docs (s.vectors.map (fun v => dotScore q v))).mergeSort
    (fun a b => decide (b.2 ≤ a.2))).take top_k

/-- Modelled from the spec: the serialized on-disk artifacts of the flat
backend — the raw matrix in row-major order with its dimension, plus the
parallel document store. -/
structure PersistedArtifacts where
  dim : Nat
  matrixData : List ℚ
  docStore : List String
deriving DecidableEq

/-- Serialize the store to its persisted artifacts. -/
def FlatStore.persist (s : FlatStore) : PersistedArtifacts :=
  { dim := s.dim, matrixData := s.vectors.flatten, docStore := s.docs }

/-- Split a row-major matrix back into rows of the stored dimension. -/
def chunkRows (dim : Nat) (xs : List ℚ) : List (List ℚ) :=
  if h : xs = [] then []
  else xs.take (max dim 1) :: chunkRows dim (xs.drop (max dim 1))
termination_by xs.length
decreasing_by
  simp only [List.length_drop]
  have := List.length_pos.mpr h
  omega

/-- Reopen a persisted flat index from its artifacts alone. -/
def FlatStore.open (a : PersistedArtifacts) : FlatStore :=
  { dim := a.dim, vectors := chunkRows a.dim a.matrixData, docs := a.docStore }

/-! ### The concrete extractor example of the spec -/

/-- The example model output of the spec: commentary, an object, commentary. -/
def exampleModelOutput : String :=
  "Sure! \x7b\"summary\":\"x\",\"decision\":\"review\",\"reasons\":[]\x7d thanks"

/-- The inner brace-delimited object of the example output. -/
def exampleInnerObject : String :=
  "\x7b\"summary\":\"x\",\"decision\":\"review\",\"reasons\":[]\x7d"

/-- The parse of the inner object. -/
def exampleParsedJson : Json :=
  Json.obj [("summary", Json.str "x"), ("decision", Json.str "review"),
            ("reasons", Json.arr [])]

/-- The validated structured answer of the example. -/
def exampleValidated : AssistantResponse :=
  { summary := "x", decision := "review", reasons := [] }

/-! ### Properties of the brace-span search -/

theorem firstIdxOf_none (c : Char) (cs : List Char) (h : firstIdxOf c cs = none) :
    ∀ k : Nat, cs[k]? ≠ some c := by
  induction cs with
  | nil => intro k; simp
  | cons x xs ih =>
    intro k
    by_cases hx : x = c
    · simp [firstIdxOf, hx] at h
    · simp only [firstIdxOf, if_neg hx, Option.map_eq_none'] at h
      cases k with
      | zero => simpa using hx
      | succ k => simpa using ih h k

theorem firstIdxOf_spec (c : Char) (cs : List Char) (i : Nat)
    (h : firstIdxOf c cs = some i) :
    cs[i]? = some c ∧ ∀ k : Nat, cs[k]? = some c → i ≤ k := by
  induction cs generalizing i with
  | nil => simp [firstIdxOf] at h
  | cons x xs ih =>
    by_cases hx : x = c
    · simp only [firstIdxOf, if_pos hx, Option.some.injEq] at h
      subst h
      exact ⟨by simpa using hx, fun k _ => Nat.zero_le k⟩
    · simp only [firstIdxOf, if_neg hx, Option.map_eq_some'] at h
      obtain ⟨i', hi', rfl⟩ := h
      obtain ⟨h1, h2⟩ := ih i' hi'
      refine ⟨by simpa using h1, fun k hk => ?_⟩
      cases k with
      | zero => exact absurd (by simpa using hk) hx
      | succ k => exact Nat.succ_le_succ (h2 k (by simpa using hk))

theorem lastIdxOf_none_aux (c : Char) (cs : List Char) (h : lastIdxOf c cs = none) :
    ∀ k : Nat, cs[k]? ≠ some c := by
  induction cs with
  | nil => intro k; simp
  | cons x xs ih =>
    intro k
    cases hl : lastIdxOf c xs with
    | some j' => simp [lastIdxOf, hl] at h
    | none =>
      by_cases hx : x = c
      · simp [lastIdxOf, hl, if_pos hx] at h
      · cases k with
        | zero => simpa using hx
        | succ k => simpa using ih hl k

theorem lastIdxOf_spec (c : Char) (cs : List Char) (j : Nat)
    (h : lastIdxOf c cs = some j) :
    cs[j]? = some c ∧ ∀ k : Nat, cs[k]? = some c → k ≤ j := by
  induction cs generalizing j with
  | nil => simp [lastIdxOf] at h
  | cons x xs ih =>
    cases hl : lastIdxOf c xs with
    | some j' =>
      simp only [lastIdxOf, hl, Option.some.injEq] at h
      subst h
      obtain ⟨h1, h2⟩ := ih j' hl
      refine ⟨by simpa using h1, fun k hk => ?_⟩
      cases k with
      | zero => exact Nat.zero_le _
      | succ k => exact Nat.succ_le_succ (h2 k (by simpa using hk))
    | none =>
      by_cases hx : x = c
      · simp only [lastIdxOf, hl, if_pos hx, Option.some.injEq] at h
        subst h
        refine ⟨by simpa using hx, fun k hk => ?_⟩
        cases k with
        | zero => exact Nat.le_refl 0
        | succ k =>
          exact absurd (by simpa using hk) (lastIdxOf_none_aux c xs hl k)
      · simp [lastIdxOf, hl, if_neg hx] at h

theorem regexBraceSpan_none_iff (cs : List Char) :
    regexBraceSpan cs = none ↔
      ¬ ∃ i j : Nat, i < j ∧ cs[i]? = some '{' ∧ cs[j]? = some '}' := by
  constructor
  · rintro h ⟨i, j, hij, hi, hj⟩
    cases hf : firstIdxOf '{' cs with
    | none => exact firstIdxOf_none _ _ hf i hi
    | some i0 =>
      cases hl : lastIdxOf '}' cs with
      | none => exact lastIdxOf_none_aux _ _ hl j hj
      | some j0 =>
        have h1 := firstIdxOf_spec _ _ _ hf
        have h2 := lastIdxOf_spec _ _ _ hl
        have hlt : i0 < j0 :=
          lt_of_le_of_lt (h1.2 i hi) (lt_of_lt_of_le hij (h2.2 j hj))
        simp [regexBraceSpan, hf, hl, hlt] at h
  · intro h
    cases hf : firstIdxOf '{' cs with
    | none => simp [regexBraceSpan, hf]
    | some i0 =>
      cases hl : lastIdxOf '}' cs with
      | none => simp [regexBraceSpan, hf, hl]
      | some j0 =>
        by_cases hij : i0 < j0
        · exact absurd
            ⟨i0, j0, hij, (firstIdxOf_spec _ _ _ hf).1, (lastIdxOf_spec _ _ _ hl).1⟩ h
        · simp [regexBraceSpan, hf, hl, hij]

/-- Claim C2: the extractor fails with NoJsonFound exactly when the input
text has no brace-delimited substring, that is, no opening brace strictly
before a closing brace.  When such a substring exists the extractor never
reports NoJsonFound (it either returns the parsed object or fails with
MalformedJson on a parse error). -/
theorem extract_json_noJsonFound_iff (text : String) :
    extract_json text = Except.error ExtractErr.noJsonFound ↔
      ¬ ∃ i j : Nat, i < j ∧ text.data[i]? = some '{' ∧ text.data[j]? = some '}' := by
  rw [← regexBraceSpan_none_iff]
  unfold extract_json
  cases h : regexBraceSpan text.data with
  | none => simp
  | some sub => cases hj : jsonLoads (String.mk sub) <;> simp [hj]

/-- Claim C1: on the example model output the extractor matches exactly the
inner brace-delimited object (the greedy span from the first opening brace
to the last closing brace), parses it, and the parse validates against the
Structured Answer schema with decision review. -/
theorem extractor_example_ok :
    regexBraceSpan exampleModelOutput.data = some exampleInnerObject.data ∧
    extract_json exampleModelOutput = Except.ok exampleParsedJson ∧
    AssistantResponse.model_validate exampleParsedJson = Except.ok exampleValidated ∧
    exampleValidated.decision = "review" :=
  ⟨rfl, rfl, rfl, rfl⟩

/-! ### The failure-translator mapping -/

/-- Claim C3: the failure translator is total over the exception taxonomy
and follows the fixed mapping: a timeout condition yields the
ServiceTimeout message, a connection-refused or unreachable condition the
ServiceUnreachable message, an HTTP 404 the ModelNotFound message, any
other HTTP error status the ServiceError message naming the status code
and configured endpoint, and every other exception the
UnknownServiceFailure fallback; every exception maps to exactly one of the
five messages, and a connection-refused condition is surfaced as the
friendly message, never as the raw socket error string. -/
theorem friendly_ollama_error_mapping (exc : OllamaExc) :
    (isTimeoutExc exc = true → friendly_ollama_error exc = serviceTimeoutMsg) ∧
    (isConnectExc exc = true → friendly_ollama_error exc = serviceUnreachableMsg) ∧
    (∀ st, httpStatusOf exc = some st →
      friendly_ollama_error exc =
        if st = some 404 then modelNotFoundMsg else serviceErrorMsg st) ∧
    (isTimeoutExc exc = false → isConnectExc exc = false → httpStatusOf exc = none →
      friendly_ollama_error exc = unknownFailureMsg) ∧
    (friendly_ollama_error exc = serviceTimeoutMsg ∨
     friendly_ollama_error exc = serviceUnreachableMsg ∨
     friendly_ollama_error exc = modelNotFoundMsg ∨
     (∃ st, friendly_ollama_error exc = serviceErrorMsg st) ∨
     friendly_ollama_error exc = unknownFailureMsg) ∧
    (exc = OllamaExc.connectionRefused →
      friendly_ollama_error exc = serviceUnreachableMsg ∧
      friendly_ollama_error exc ≠ "[Errno 111] Connection refused") := by
  cases exc with
  | httpxHTTPStatusError st =>
    refine ⟨by simp [isTimeoutExc], by simp [isConnectExc], ?_, by simp [httpStatusOf], ?_, by simp⟩
    · intro st' hst
      simp only [httpStatusOf, Option.some.injEq] at hst
      subst hst
      rfl
    · by_cases h404 : st = some 404
      · exact Or.inr (Or.inr (Or.inl (by
          simp [friendly_ollama_error, isTimeoutExc, isConnectExc, h404])))
      · exact Or.inr (Or.inr (Or.inr (Or.inl ⟨st, by
          simp [friendly_ollama_error, isTimeoutExc, isConnectExc, h404]⟩)))
  | requestsHTTPError st =>
    refine ⟨by simp [isTimeoutExc], by simp [isConnectExc], ?_, by simp [httpStatusOf], ?_, by simp⟩
    · intro st' hst
      simp only [httpStatusOf, Option.some.injEq] at hst
      subst hst
      rfl
    · by_cases h404 : st = some 404
      · exact Or.inr (Or.inr (Or.inl (by
          simp [friendly_ollama_error, isTimeoutExc, isConnectExc, h404])))
      · exact Or.inr (Or.inr (Or.inr (Or.inl ⟨st, by
          simp [friendly_ollama_error, isTimeoutExc, isConnectExc, h404]⟩)))
  | socketTimeout =>
    exact ⟨fun _ => rfl, by simp [isConnectExc], by simp [httpStatusOf],
      by simp [isTimeoutExc], Or.inl rfl, by simp⟩
  | timeoutError =>
    exact ⟨fun _ => rfl, by simp [isConnectExc], by simp [httpStatusOf],
      by simp [isTimeoutExc], Or.inl rfl, by simp⟩
  | requestsTimeout =>
    exact ⟨fun _ => rfl, by simp [isConnectExc], by simp [httpStatusOf],
      by simp [isTimeoutExc], Or.inl rfl, by simp⟩
  | httpxTimeout =>
    exact ⟨fun _ => rfl, by simp [isConnectExc], by simp [httpStatusOf],
      by simp [isTimeoutExc], Or.inl rfl, by simp⟩
  | connectionRefused =>
    exact ⟨by simp [isTimeoutExc], fun _ => rfl, by simp [httpStatusOf],
      by simp [isConnectExc], Or.inr (Or.inl rfl),
      fun _ => ⟨rfl, by decide⟩⟩
  | requestsConnectionError =>
    exact ⟨by simp [isTimeoutExc], fun _ => rfl, by simp [httpStatusOf],
      by simp [isConnectExc], Or.inr (Or.inl rfl), by simp⟩
  | httpxConnectError =>
    exact ⟨by simp [isTimeoutExc], fun _ => rfl, by simp [httpStatusOf],
      by simp [isConnectExc], Or.inr (Or.inl rfl), by simp⟩
  | otherException raw =>
    exact ⟨by simp [isTimeoutExc], by simp [isConnectExc], by simp [httpStatusOf],
      fun _ _ _ => rfl, Or.inr (Or.inr (Or.inr (Or.inr rfl))), by simp⟩

/-- Concrete instance of the translator mapping: a connection-refused
condition surfaces as the ServiceUnreachable message. -/
theorem friendly_ollama_error_mapping_witness :
    friendly_ollama_error OllamaExc.connectionRefused = serviceUnreachableMsg :=
  ((friendly_ollama_error_mapping OllamaExc.connectionRefused).2.1) rfl

/-! ### Soundness of schema validation -/

theorem validateLiteral_mem (allowed : List String) (j : Json) (s : String)
    (h : validateLiteral allowed j = some s) : s ∈ allowed := by
  match j with
  | Json.str s' =>
    simp only [validateLiteral] at h
    split at h
    next hmem =>
      injection h with h2
      subst h2
      exact hmem
    next => exact Option.noConfusion h
  | Json.null | Json.bool _ | Json.numInt _ | Json.numFloat _ _ _
  | Json.arr _ | Json.obj _ => exact Option.noConfusion h

theorem traverseOpt_mem {α : Type} (f : Json → Option α) (xs : List Json) (ys : List α)
    (h : traverseOpt f xs = some ys) : ∀ y ∈ ys, ∃ x, f x = some y := by
  induction xs generalizing ys with
  | nil =>
    simp only [traverseOpt, Option.some.injEq] at h
    subst h
    simp
  | cons x xs ih =>
    simp only [traverseOpt] at h
    cases hf : f x with
    | none => rw [hf] at h; exact Option.noConfusion h
    | some y0 =>
      cases ht : traverseOpt f xs with
      | none => rw [hf, ht] at h; exact Option.noConfusion h
      | some ys0 =>
        rw [hf, ht] at h
        injection h with h2
        subst h2
        intro y hy
        rcases List.mem_cons.mp hy with rfl | hmem
        · exact ⟨x, hf⟩
        · exact ih ys0 ht y hmem

theorem validateList_mem {α : Type} (f : Json → Option α) (j : Json) (ys : List α)
    (h : validateList f j = some ys) : ∀ y ∈ ys, ∃ x, f x = some y := by
  match j with
  | Json.arr elems => exact traverseOpt_mem f elems ys h
  | Json.null | Json.bool _ | Json.numInt _ | Json.numFloat _ _ _
  | Json.str _ | Json.obj _ => exact Option.noConfusion h

theorem validateReason_type (j : Json) (r : Reason) (h : validateReason j = some r) :
    r.type ∈ reasonTypeValues := by
  match j with
  | Json.obj ms =>
    simp only [validateReason, Option.bind_eq_some, Option.some.injEq] at h
    obtain ⟨ty, hty, tx, htx, ev, hev, hr⟩ := h
    subst hr
    simp only [reqField, Option.bind_eq_some] at hty
    obtain ⟨jv, _, hv⟩ := hty
    exact validateLiteral_mem _ jv ty hv
  | Json.null | Json.bool _ | Json.numInt _ | Json.numFloat _ _ _
  | Json.str _ | Json.arr _ => exact Option.noConfusion h

theorem validateAssistantResponse_spec (j : Json) (r : AssistantResponse)
    (h : validateAssistantResponse j = some r) :
    r.decision ∈ decisionValues ∧ ∀ reason ∈ r.reasons, reason.type ∈ reasonTypeValues := by
  match j with
  | Json.obj ms =>
    simp only [validateAssistantResponse, Option.bind_eq_some, Option.some.injEq] at h
    obtain ⟨su, hsu, de, hde, re, hre, mi, hmi, na, hna, cm, hcm, rn, hrn, hr⟩ := h
    subst hr
    constructor
    · simp only [reqField, Option.bind_eq_some] at hde
      obtain ⟨jv, _, hv⟩ := hde
      exact validateLiteral_mem _ jv de hv
    · intro reason hmem
      simp only [reqField, Option.bind_eq_some] at hre
      obtain ⟨jv, _, hv⟩ := hre
      obtain ⟨x, hx⟩ := validateList_mem validateReason jv re hv reason hmem
      exact validateReason_type x reason hx
  | Json.null | Json.bool _ | Json.numInt _ | Json.numFloat _ _ _
  | Json.str _ | Json.arr _ => exact Option.noConfusion h

/-- Claim C4: a structured answer returned by the pipeline always comes from
an extracted object that validated in full against the schema: its decision
is one of the four enumerated values, every reason type is one of the three
enumerated values, and an evidence element a reason cites only ever lies in
that reason's (therefore non-empty) evidence list.  An object failing
validation makes explain_case fail with the raised validation error, so a
partial or coerced structured answer is never returned. -/
theorem schema_validation_enforced (env : LlmEnv) (r : AssistantResponse)
    (h : explain_case env = Except.ok r) :
    r.decision ∈ decisionValues ∧
    (∀ reason ∈ r.reasons, reason.type ∈ reasonTypeValues) ∧
    (∀ reason ∈ r.reasons, ∀ e ∈ reason.evidence, reason.evidence ≠ []) ∧
    ∃ data, extract_json env.queryText = Except.ok data ∧
      AssistantResponse.model_validate data = Except.ok r ∧
      validateAssistantResponse data = some r := by
  unfold explain_case at h
  split at h
  · exact Except.noConfusion h
  · split at h
    · exact Except.noConfusion h
    · split at h
      · exact Except.noConfusion h
      · exact Except.noConfusion h
      · next data heq =>
        unfold AssistantResponse.model_validate at h
        split at h
        · next r' hval =>
          injection h with h2
          subst h2
          obtain ⟨hd, ht⟩ := validateAssistantResponse_spec data r' hval
          refine ⟨hd, ht, fun reason _ e he2 => List.ne_nil_of_mem he2,
            data, heq, ?_, hval⟩
          unfold AssistantResponse.model_validate
          rw [hval]
        · exact Except.noConfusion h

/-- Concrete instance: running explain_case on the example model output
returns the fully validated example answer, whose decision is among the
enumerated values. -/
theorem schema_validation_enforced_witness :
    exampleValidated.decision ∈ decisionValues :=
  (schema_validation_enforced { queryText := exampleModelOutput } exampleValidated rfl).1

/-! ### Similarity-cutoff postprocessing -/

/-- Claim C5: with the similarity postprocessor enabled, every result whose
score is below the 0.7 cutoff is dropped from the returned result set —
even when that empties the set — while every result within the top-k whose
score is not below the cutoff is kept. -/
theorem similarity_cutoff_drops (topK : Option Nat) (mode : Option String)
    (ranked : List RetrievalResult) :
    (∀ r ∈ runQuery (create_query_engine topK mode true) ranked,
      ¬ r.score < 7 / 10) ∧
    ((∀ r ∈ ranked, r.score < 7 / 10) →
      runQuery (create_query_engine topK mode true) ranked = []) ∧
    (∀ r ∈ ranked.take (create_query_engine topK mode true).similarity_top_k,
      ¬ r.score < 7 / 10 → r ∈ runQuery (create_query_engine topK mode true) ranked) := by
  have hq : runQuery (create_query_engine topK mode true) ranked =
      (ranked.take (orDefaultNat topK SIMILARITY_TOP_K)).filter
        (fun r => decide ((7 : ℚ) / 10 ≤ r.score)) := rfl
  refine ⟨?_, ?_, ?_⟩
  · intro r hr
    rw [hq] at hr
    exact not_lt.mpr (of_decide_eq_true (List.mem_filter.mp hr).2)
  · intro hall
    rw [hq]
    rw [List.filter_eq_nil_iff]
    intro a ha
    simpa using not_le.mpr (hall a (List.take_subset _ _ ha))
  · intro r hr hge
    rw [hq]
    exact List.mem_filter.mpr ⟨hr, decide_eq_true (not_lt.mp hge)⟩

/-- Concrete instance: with cutoff 0.7 a result scored 0.9 within the top-k
is kept while the result scored 0.65 is dropped (checked directly on the
returned set). -/
theorem similarity_cutoff_drops_witness :
    (⟨0, (9 : ℚ) / 10⟩ : RetrievalResult) ∈
      runQuery (create_query_engine (some 2) none true)
        [⟨0, (9 : ℚ) / 10⟩, ⟨1, (65 : ℚ) / 100⟩] ∧
    runQuery (create_query_engine (some 2) none true)
        [⟨0, (9 : ℚ) / 10⟩, ⟨1, (65 : ℚ) / 100⟩] = [⟨0, (9 : ℚ) / 10⟩] :=
  ⟨(similarity_cutoff_drops (some 2) none
      [⟨0, (9 : ℚ) / 10⟩, ⟨1, (65 : ℚ) / 100⟩]).2.2
        ⟨0, (9 : ℚ) / 10⟩ (by
          simp [create_query_engine, orDefaultNat, SIMILARITY_TOP_K]) (by norm_num),
    by norm_num [runQuery, create_query_engine, orDefaultNat, applyPostprocessor,
      List.filter]⟩

/-! ### Index loading -/

/-- Claim C9: load_index returns None rather than raising, both when the
index directory does not exist and when loading the stored artifacts
fails inside the try block; in every case it returns normally. -/
theorem load_index_recoverable (vectorStoreType : String) (env : LoadEnv)
    (st : GlobalSettings) :
    (∃ r st', load_index vectorStoreType env st = (Except.ok r, st')) ∧
    (env.indexDirExists = false →
      load_index vectorStoreType env st = (Except.ok none, st)) ∧
    (∀ e st', loadIndexInner vectorStoreType env st = (Except.error e, st') →
      (load_index vectorStoreType env st).1 = Except.ok none) := by
  by_cases hd : env.indexDirExists = false
  · exact ⟨⟨none, st, by simp [load_index, hd]⟩, fun _ => by simp [load_index, hd],
      fun e st' _ => by simp [load_index, hd]⟩
  · refine ⟨?_, fun hc => absurd hc hd, ?_⟩
    · rcases hi : loadIndexInner vectorStoreType env st with ⟨fst, snd⟩
      cases fst with
      | ok idx => exact ⟨some idx, snd, by simp [load_index, hd, hi]⟩
      | error e => exact ⟨none, snd, by simp [load_index, hd, hi]⟩
    · intro e st' hmatch
      simp [load_index, hd, hmatch]

/-- Concrete instance: with a missing index directory load_index returns
None and leaves the settings alone. -/
theorem load_index_recoverable_witness :
    load_index "chroma" ⟨false, true, []⟩ ⟨none⟩ = (Except.ok none, ⟨none⟩) :=
  (load_index_recoverable "chroma" ⟨false, true, []⟩ ⟨none⟩).2.1 rfl

/-- Claim C6 (code evidence): loading a persisted index re-instantiates the
configured embedding model only on the chroma path; the faiss and simple
paths leave the global embedding model exactly as it was, so a fresh
process that loads a faiss or simple index queries without the build-time
embedding model installed. -/
theorem load_embed_model_only_chroma :
    (load_index "chroma" ⟨true, true, []⟩ ⟨none⟩).2.embed_model
        = some ⟨EMBEDDING_MODEL, 32⟩ ∧
    (load_index "faiss" ⟨true, true, []⟩ ⟨none⟩).2.embed_model = none ∧
    (load_index "simple" ⟨true, true, []⟩ ⟨none⟩).2.embed_model = none :=
  ⟨rfl, rfl, rfl⟩

/-! ### Index building -/

/-- Claim C8: when document loading yields no documents — in particular
whenever the source directory is missing — create_index returns None
rather than raising, builds nothing, persists nothing and leaves the
global settings untouched. -/
theorem create_index_no_documents (vectorStoreType : String) (persist : Bool)
    (env : BuildEnv) (st : GlobalSettings)
    (h : load_documents_from_directory env.docsDirExists env.readerResult = []) :
    create_index vectorStoreType none persist env st =
      { returned := none, persistedArtifacts := false, settingsAfter := st } ∧
    ∀ rr : Except String (List String), load_documents_from_directory false rr = [] :=
  ⟨by simp [create_index, h], fun rr => by simp [load_documents_from_directory]⟩

/-- Concrete instance: a missing documents directory yields no documents
and a None build result, with nothing persisted. -/
theorem create_index_no_documents_witness :
    create_index "chroma" none true ⟨false, Except.ok ["doc"], false⟩ ⟨none⟩ =
      { returned := none, persistedArtifacts := false, settingsAfter := ⟨none⟩ } :=
  (create_index_no_documents "chroma" true ⟨false, Except.ok ["doc"], false⟩ ⟨none⟩ rfl).1

/-- Claim C10: when writing the index artifacts raises, the exception is
caught and only logged: create_index still returns the freshly built
in-memory index, identical in returned value and final settings to the
successful-persist run, so the caller cannot distinguish the two outcomes
from the return value; only the durable artifacts differ. -/
theorem persist_failure_invisible (vectorStoreType : String) (docs : List String)
    (env : BuildEnv) (st : GlobalSettings) (hne : docs ≠ []) :
    (create_index vectorStoreType (some docs) true
        { env with persistRaises := true } st).returned = some ⟨docs⟩ ∧
    (create_index vectorStoreType (some docs) true
        { env with persistRaises := true } st).returned =
      (create_index vectorStoreType (some docs) true
        { env with persistRaises := false } st).returned ∧
    (create_index vectorStoreType (some docs) true
        { env with persistRaises := true } st).settingsAfter =
      (create_index vectorStoreType (some docs) true
        { env with persistRaises := false } st).settingsAfter ∧
    (create_index vectorStoreType (some docs) true
        { env with persistRaises := true } st).persistedArtifacts = false := by
  match docs with
  | [] => exact absurd rfl hne
  | d :: ds => exact ⟨rfl, rfl, rfl, by simp [create_index, persistIndex]⟩

/-- Concrete instance: a failing persist still returns the built index. -/
theorem persist_failure_invisible_witness :
    (create_index "simple" (some ["doc"]) true ⟨true, Except.ok [], true⟩ ⟨none⟩).returned
      = some ⟨["doc"]⟩ :=
  (persist_failure_invisible "simple" ["doc"] ⟨true, Except.ok [], false⟩ ⟨none⟩
    (List.cons_ne_nil _ _)).1

/-! ### Flat-store persistence round-trip -/

theorem chunkRows_flatten (dim : Nat) (hdim : 1 ≤ dim) :
    ∀ rows : List (List ℚ), (∀ r ∈ rows, r.length = dim) →
      chunkRows dim rows.flatten = rows := by
  intro rows
  induction rows with
  | nil => intro _; simp [chunkRows]
  | cons r rs ih =>
    intro hrows
    have hr : r.length = dim := hrows r (by simp)
    have hrne : r ≠ [] := by
      intro hcon
      rw [hcon] at hr
      simp at hr
      omega
    have hne : r ++ rs.flatten ≠ [] := by
      intro hcon
      exact hrne (List.append_eq_nil.mp hcon).1
    have hmax : max dim 1 = dim := Nat.max_eq_left hdim
    rw [List.flatten_cons, chunkRows, dif_neg hne, hmax, ← hr,
      List.take_left, List.drop_left, hr]
    exact congrArg (r :: ·) (ih fun x hx => hrows x (List.mem_cons_of_mem _ hx))

/-- Claim C7: persisting a well-formed flat index and reopening it from the
persisted artifacts alone restores the identical store, so search over the
reopened store returns the same chunks with the same scores in the same
order as the pre-persist store, for every query and top_k. -/
theorem persist_open_roundtrip (s : FlatStore) (h : s.wf) (q : List ℚ) (top_k : Nat) :
    FlatStore.open s.persist = s ∧
    (FlatStore.open s.persist).search q top_k = s.search q top_k := by
  have hchunk : chunkRows s.dim s.vectors.flatten = s.vectors :=
    chunkRows_flatten s.dim h.1 s.vectors h.2
  have hopen : FlatStore.open s.persist = s := by
    show (⟨s.dim, chunkRows s.dim s.vectors.flatten, s.docs⟩ : FlatStore) = s
    rw [hchunk]
  exact ⟨hopen, by rw [hopen]⟩

/-- Concrete instance: a two-vector store round-trips through persistence
and searches identically afterwards. -/
theorem persist_open_roundtrip_witness :
    (FlatStore.open (FlatStore.persist ⟨2, [[1, 0], [0, 1]], ["a", "b"]⟩)).search [1, 0] 2
      = FlatStore.search ⟨2, [[1, 0], [0, 1]], ["a", "b"]⟩ [1, 0] 2 :=
  (persist_open_roundtrip ⟨2, [[1, 0], [0, 1]], ["a", "b"]⟩
    ⟨by decide, by
      intro v hv
      simp only [List.mem_cons, List.not_mem_nil, or_false] at hv
      rcases hv with rfl | rfl <;> rfl⟩ [1, 0] 2).2

end CreditRag
